import Mathlib

/-!
Verification development for the TmServer repository (TissueMAPS server).

The definitions below are a shallow embedding of the Python sources:

* `src/tmserver/appfactory.py` — `get_interrupted_tasks` and the startup
  task-recovery loop of `create_app`;
* `src/tmaps/jtui/api.py` — `list_module_names`,
  `get_available_jtpipelines`, `create_joblist` (its name environment),
  and `_get_output` with its filename-matching helpers;
* `src/src/tmserver/experiment/upload.py` — `register_upload` and the
  file-kind dispatch of `upload_file`;
* `src/tmaps/tool/result.py` — the ORM entity constructors.

Databases are modelled as lists of records, directories as lists of
named files (in on-disk listing order, matching the unspecified order of
`os.listdir`/`glob.glob`), Python `dict`s as association lists with
last-insertion-wins lookup, and code paths that raise exceptions as
`Option`/`Except` values.
-/

/-- A file in a directory: basename together with its content
(the directory itself is a `List FsFile`, in listing order). -/
structure FsFile where
  name : String
  content : String
deriving DecidableEq

/-- `os.path.exists` + `open(...).read()` on a directory listing:
the content of the file called `name`, if present. -/
def readFile (dir : List FsFile) (name : String) : Option String :=
  (dir.find? (fun f => f.name == name)).map (·.content)

/-- Lookup in a Python `dict` built by inserting the pairs in list order:
a later pair with the same key overwrites an earlier one. -/
def dictGet {α : Type} : List (String × α) → String → Option α
  | [], _ => none
  | (k, v) :: rest, key =>
    match dictGet rest key with
    | some v' => some v'
    | none => if k == key then some v else none

/-- Sequencing of a Python list comprehension whose element expression can
raise: `none` as soon as one element raises, the list of values otherwise. -/
def optionMapList {α β : Type} (f : α → Option β) : List α → Option (List β)
  | [] => some []
  | a :: as =>
    match f a, optionMapList f as with
    | some b, some bs => some (b :: bs)
    | _, _ => none

/-- `os.path.basename` for POSIX paths: the part after the last slash. -/
def basename (s : String) : String :=
  String.mk ((s.toList.reverse.takeWhile (fun c => c ≠ '/')).reverse)

/-- Root part of `os.path.splitext` applied to a basename: cut at the last
dot that has some non-dot character before it (leading dots are not
extension separators in CPython). -/
def splitextRoot (s : String) : String :=
  let l := s.toList
  match ((List.range l.length).filter
      (fun i => l.getD i ' ' == '.' && (l.take i).any (fun c => c != '.'))).getLast? with
  | some i => String.mk (l.take i)
  | none => s

/-! ## appfactory.py: `get_interrupted_tasks` and the `create_app` recovery loop -/

/-- Row of the `submissions` table (the column the query projects). -/
structure SubmissionRow where
  top_task_id : Nat
deriving DecidableEq

/-- Row of the `tasks` status table (the columns the query touches). -/
structure TaskRow where
  id : Nat
  state : String
deriving DecidableEq

/-- The main database as seen by `get_interrupted_tasks`. -/
structure MainDb where
  submissions : List SubmissionRow
  tasks : List TaskRow

/-- The state set excluded by the filter in `get_interrupted_tasks`. -/
def stoppedStates : List String := ["STOPPED", "TERMINATED", "TERMINATING"]

/-- Embedding of `appfactory.get_interrupted_tasks`: IDs of tasks whose id
occurs among the submissions' `top_task_id`s and whose state is not in
`stoppedStates`. -/
def get_interrupted_tasks (db : MainDb) : List Nat :=
  ((db.tasks.filter
      (fun t => (db.submissions.map (·.top_task_id)).contains t.id &&
        !(stoppedStates.contains t.state))).map (·.id))

/-- A call into the gc3pie extension made by the recovery loop. -/
inductive Gc3Call where
  | retrieveTask (id : Nat)
  | continueTask (id : Nat)
deriving DecidableEq

/-- Embedding of the startup recovery loop at the end of
`appfactory.create_app`: for each id returned by `get_interrupted_tasks`
the task is retrieved and then continued. -/
def create_app_task_recovery (db : MainDb) : List Gc3Call :=
  ((get_interrupted_tasks db).map
    (fun tid => [Gc3Call.retrieveTask tid, Gc3Call.continueTask tid])).flatten

/-! ## jtui/api.py: module names and the dead-code pipeline listing -/

/-- A `pipeline` entry of a pipe description (the keys `list_module_names`
reads). -/
structure PipelineModule where
  handles : String
  active : Bool

/-- Embedding of `jtui.api.list_module_names`: basenames of the `handles`
files of active modules, with (up to) two extensions stripped. -/
def list_module_names (pipeline : List PipelineModule) : List String :=
  (pipeline.filter (·.active)).map
    (fun m => splitextRoot (splitextRoot (basename m.handles)))

/-- Embedding of `jtui.api.get_available_jtpipelines`: the computed list of
basenames is rebound to the empty list before the response is built, as in
the source. -/
def get_available_jtpipelines (pipeProjects : List String) : List String :=
  let pipes := pipeProjects.map (fun p => basename p)
  let pipes := ([] : List String)
  pipes

/-! ## jtui/api.py: name environment of `create_joblist` -/

/-- All names bound at module level in `src/tmaps/jtui/api.py`: imported
names followed by the module-level definitions and assignments. -/
def jtuiApiGlobals : List String :=
  ["os", "time", "json", "re", "glob", "yaml", "logging", "natsorted",
   "send_file", "jsonify", "request", "Blueprint", "current_app",
   "jwt_required", "websocket", "extract_model_from_path", "gc3pie", "db",
   "tm", "Experiment", "get_step_args", "RunJob", "RunJobCollection",
   "cluster_utils", "ImageAnalysisPipeline", "configure_logging",
   "list_projects", "Project", "AvailableModules", "jtui", "logger",
   "list_module_names", "get_projects", "get_available_jtprojects",
   "get_jtproject", "get_available_jtmodules", "get_available_jtpipelines",
   "get_available_channels", "get_module_source_code", "get_module_figure",
   "create_joblist", "save_jtproject", "check_jtproject",
   "remove_jtproject", "create_jtproject", "kill_jobs", "_get_output",
   "get_job_status", "get_job_output", "run_jobs"]

/-- Python builtins referenced anywhere in `jtui/api.py`. -/
def pyBuiltinsUsed : List String :=
  ["int", "open", "dict", "zip", "enumerate", "isinstance", "list", "str",
   "map", "print", "Exception", "IndexError"]

/-- Names local to `create_joblist` (its parameter and the variables
assigned before the `ImageAnalysisPipeline(...)` call). -/
def create_joblist_locals : List String := ["experiment", "data", "experiment_id"]

/-- Python name resolution inside a function body of `jtui/api.py`:
locals, then module globals, then builtins. -/
def nameResolves (n : String) (locals : List String) : Bool :=
  locals.contains n || jtuiApiGlobals.contains n || pyBuiltinsUsed.contains n

/-! ## jtui/api.py: `_get_output` and its filename bookkeeping -/

/-- Decimal digit character (value `< 10`). -/
def natDigitChar (n : Nat) : Char := Char.ofNat (48 + n)

/-- Decimal rendering with a fuel argument (structural recursion; the
fuel bounds the digit count). -/
def natDecimalAux : Nat → Nat → List Char
  | 0, _ => []
  | fuel + 1, n =>
    if n < 10 then [natDigitChar n]
    else natDecimalAux fuel (n / 10) ++ [natDigitChar (n % 10)]

/-- Decimal rendering of a natural number, as `'%d'` does. -/
def natDecimal (n : Nat) : List Char := natDecimalAux (n + 1) n

/-- `'%.5d' % j`: the decimal digits of `j`, left-padded with zeros to
width 5. -/
def pad5L (j : Nat) : List Char :=
  List.replicate (5 - (natDecimal j).length) '0' ++ natDecimal j

/-- The literal part of the glob pattern `'*_%.5d.<ext>' % j`. -/
def globSuffixL (j : Nat) (ext : List Char) : List Char :=
  '_' :: (pad5L j ++ '.' :: ext)

def extOut : List Char := ['o', 'u', 't']
def extErr : List Char := ['e', 'r', 'r']
def extJson : List Char := ['j', 's', 'o', 'n']

/-- `glob.glob` match of a basename against a pattern `'*<suffix>'` whose
suffix holds no wildcard: the name must end with the suffix, and `glob`
never matches hidden files with a `*` pattern. -/
def globMatch (suffix : List Char) (name : String) : Bool :=
  !(name.toList.head? == some '.') && suffix.isSuffixOf name.toList

/-- `glob.glob(os.path.join(log_dir, '*_%.5d.out' % j))`, in directory
listing order. -/
def stdout_files (logDir : List FsFile) (j : Nat) : List FsFile :=
  logDir.filter (fun f => globMatch (globSuffixL j extOut) f.name)

/-- `glob.glob(os.path.join(log_dir, '*_%.5d.err' % j))`. -/
def stderr_files (logDir : List FsFile) (j : Nat) : List FsFile :=
  logDir.filter (fun f => globMatch (globSuffixL j extErr) f.name)

/-- `glob.glob(os.path.join(figures_dir, '*_%.5d.json' % j))`. -/
def fig_files (figDir : List FsFile) (j : Nat) : List FsFile :=
  figDir.filter (fun f => globMatch (globSuffixL j extJson) f.name)

/-- `'_\\d+\\.'` matched at the head of a character list: an underscore,
one or more ASCII digits, then (after the maximal digit run) a dot. -/
def digitsThenDot : List Char → Bool
  | [] => false
  | c :: cs => if c.isDigit then digitsThenDot cs else c == '.'

/-- Head match of the tail part of `re.match('(.*)_\\d+\\.', s)`. -/
def startsUDD : List Char → Bool
  | [] => false
  | [_] => false
  | a :: c :: cs => a == '_' && c.isDigit && digitsThenDot cs

/-- Whether the regex `(.*)_\\d+\\.` can match `s` with group 1 of length
`k`: the tail pattern matches at position `k` and `(.*)` (which does not
cross newlines) can cover the first `k` characters. -/
def matchStartL (l : List Char) (k : Nat) : Bool :=
  startsUDD (l.drop k) && !((l.take k).contains '\n')

/-- Group 1 of `re.match(re.compile('(.*)_\\d+\\.'), s)`: the greedy `(.*)`
takes the longest admissible prefix, i.e. the last matching position. -/
def group1L (l : List Char) : Option (List Char) :=
  (((List.range (l.length + 1)).filter (matchStartL l)).getLast?).map
    (fun k => l.take k)

/-- String form of `group1L`. -/
def group1 (s : String) : Option String :=
  (group1L s.toList).map String.mk

/-- The digit suffix of `re.search('_(\\d+)$', jobname)`, converted with
`int(...)`: the maximal trailing run of digits, which must be non-empty
and preceded by an underscore. -/
def jobIndex (s : String) : Option Nat :=
  let l := s.toList
  let ds := (l.reverse.takeWhile Char.isDigit).reverse
  if ds.isEmpty then none
  else
    match (l.take (l.length - ds.length)).getLast? with
    | some '_' => some (ds.foldl (fun n c => 10 * n + (c.toNat - 48)) 0)
    | _ => none

/-- Row of the `tasks` table as read back by `_get_output`
(`exitcode` is `NULL` while a task has not finished). -/
structure TaskRecord where
  exitcode : Option Int
  submissionId : Nat
deriving DecidableEq

/-- `session.query(tm.Task).get(persistent_id)`. -/
def lookupTask (table : List (Nat × TaskRecord)) (pid : Nat) : Option TaskRecord :=
  (table.find? (fun p => p.1 == pid)).map (·.2)

/-- A gc3pie `RunJob` as `_get_output` reads it. -/
structure RunJob where
  jobname : String
  outputDir : List FsFile
  stdoutName : String
  stderrName : String
  persistentId : Nat

/-- `stdout = open(stdout_file).read() if os.path.exists(stdout_file)
else ''`. -/
def effContent (dir : List FsFile) (name : String) : String :=
  (readFile dir name).getD ""

def jobRunningMsg : String := "-- Job is still running --"

/-- The `log` field computed for one `RunJob`. -/
def jobLog (job : RunJob) : String :=
  let stdout := effContent job.outputDir job.stdoutName
  let stderr := effContent job.outputDir job.stderrName
  if stdout == "" && stderr == "" then jobRunningMsg
  else stdout ++ "\n" ++ stderr

/-- `module_file`: group 1 of the prefix regex applied to each stdout
file's basename (`None` propagates the `AttributeError` a failed match
raises). -/
def module_file (logDir : List FsFile) (j : Nat) : Option (List String) :=
  optionMapList (fun f => group1 f.name) (stdout_files logDir j)

/-- `fig_names`: same extraction for the figure files. -/
def fig_names (figDir : List FsFile) (j : Nat) : Option (List String) :=
  optionMapList (fun f => group1 f.name) (fig_files figDir j)

/-- `dict(zip(module_file, [open(f).read() for f in stdout_files]))`. -/
def module_stdoutPairs (logDir : List FsFile) (j : Nat) (mf : List String) :
    List (String × String) :=
  mf.zip ((stdout_files logDir j).map FsFile.content)

/-- `dict(zip(module_file, [open(f).read() for f in stderr_files]))`:
the keys come from the stdout files, the values from the stderr files. -/
def module_stderrPairs (logDir : List FsFile) (j : Nat) (mf : List String) :
    List (String × String) :=
  mf.zip ((stderr_files logDir j).map FsFile.content)

/-- One entry of the `modules` list of a job's output. -/
structure ModuleOutput where
  name : String
  stdout : Option String
  stderr : Option String
deriving DecidableEq

/-- The `module_output` loop over `module_names`. -/
def module_output (logDir : List FsFile) (j : Nat) (mf : List String)
    (moduleNames : List String) : List ModuleOutput :=
  moduleNames.map (fun m =>
    { name := m
      stdout := dictGet (module_stdoutPairs logDir j mf) m
      stderr := dictGet (module_stderrPairs logDir j mf) m })

/-- One element of the list `_get_output` returns. -/
structure JobEntry where
  id : Nat
  submissionId : Nat
  name : String
  log : String
  modules : List ModuleOutput
  failed : Bool
deriving DecidableEq

/-- The body of `_get_output`'s inner loop for one `RunJob`; `none` when
the Python code would raise (unmatched jobname, unmatched output
filename, or missing task row). -/
def processRunJob (logDir figDir : List FsFile) (moduleNames : List String)
    (taskTable : List (Nat × TaskRecord)) (job : RunJob) : Option JobEntry :=
  match jobIndex job.jobname with
  | none => none
  | some j =>
    match module_file logDir j with
    | none => none
    | some mf =>
      match fig_names figDir j with
      | none => none
      | some _ =>
        match lookupTask taskTable job.persistentId with
        | none => none
        | some info =>
          some
            { id := j
              submissionId := info.submissionId
              name := job.jobname
              log := jobLog job
              modules := module_output logDir j mf moduleNames
              failed := !(info.exitcode == some 0) }

/-- A direct subtask of a workflow task (only `RunJob` instances are
processed). -/
inductive SubTask where
  | runJob (job : RunJob)
  | otherSub

/-- A task of `jobs.iter_workflow()` (only `RunJobCollection` instances
are descended into). -/
inductive WfTask where
  | runJobCollection (subtasks : List SubTask)
  | otherTask

/-- The `RunJob`s that the two `isinstance` filters of `_get_output`
keep, in iteration order. -/
def runJobsOf : List WfTask → List RunJob
  | [] => []
  | WfTask.runJobCollection subs :: rest =>
    (subs.filterMap (fun s =>
      match s with
      | SubTask.runJob j => some j
      | SubTask.otherSub => none)) ++ runJobsOf rest
  | WfTask.otherTask :: rest => runJobsOf rest

/-- Embedding of `jtui.api._get_output`. -/
def _get_output (workflow : List WfTask) (logDir figDir : List FsFile)
    (moduleNames : List String) (taskTable : List (Nat × TaskRecord)) :
    Option (List JobEntry) :=
  optionMapList (processRunJob logDir figDir moduleNames taskTable) (runJobsOf workflow)

/-! ## experiment/upload.py: `register_upload` and `upload_file` -/

/-- The `MicroscopeImageFile` rows built by `register_upload` for one
request: one row per submitted name that matches the image regex of the
experiment's microscope type and whose sanitized name is not among the
acquisition's already registered image filenames. The regex and
`secure_filename` live in external libraries and are abstracted as
function parameters. -/
def registered_img_files (imgMatch : String → Bool) (secure : String → String)
    (imgFilenames : List String) (files : List String) : List String :=
  (files.filter (fun f => imgMatch f && !(imgFilenames.contains (secure f)))).map secure

/-- The `MicroscopeMetadataFile` rows built by `register_upload`. -/
def registered_meta_files (metaMatch : String → Bool) (secure : String → String)
    (metaFilenames : List String) (files : List String) : List String :=
  (files.filter (fun f => metaMatch f && !(metaFilenames.contains (secure f)))).map secure

/-- Embedding of `upload.register_upload`: an empty `files` list raises
`MalformedRequestError`; otherwise the image and metadata rows are
created and bulk-saved. -/
def register_upload (imgMatch metaMatch : String → Bool) (secure : String → String)
    (imgFilenames metaFilenames : List String) (files : List String) :
    Except String (List String × List String) :=
  if files.length = 0 then
    Except.error "No files supplied. Cannot register upload."
  else
    Except.ok
      (registered_img_files imgMatch secure imgFilenames files,
       registered_meta_files metaMatch secure metaFilenames files)

/-- The record chosen by `upload_file` to receive the uploaded bytes. -/
inductive UploadChoice where
  | image (imgfile : Option Nat)
  | metadata (metafile : Option Nat)
deriving DecidableEq

/-- The errors `upload_file`'s dispatch can raise. -/
inductive UploadError where
  | notRegistered (filename : String)
  | registeredAsBoth (filename : String)
deriving DecidableEq

/-- The message text of each `MalformedRequestError` in the dispatch. -/
def UploadError.message : UploadError → String
  | UploadError.notRegistered fn =>
    "File was not registered: \"" ++ fn ++ "\""
  | UploadError.registeredAsBoth fn =>
    "File was registered as both image and metadata file: \"" ++ fn ++ "\""

/-- Embedding of the `if/elif/elif/else` dispatch of `upload.upload_file`
over the queried image-file and metadata-file rows (`imgfile`,
`metafile`, each an optional row id). -/
def upload_file_select (filename : String) (imgfile metafile : Option Nat) :
    Except UploadError UploadChoice :=
  let is_imgfile := imgfile.isSome
  let is_metafile := metafile.isSome
  if !is_metafile && !is_imgfile then
    Except.error (UploadError.notRegistered filename)
  else if is_imgfile then
    Except.ok (UploadChoice.image imgfile)
  else if is_metafile then
    Except.ok (UploadChoice.metadata metafile)
  else
    Except.error (UploadError.registeredAsBoth filename)

/-! ## tool/result.py: ORM entity constructors -/

/-- A JSON-ish value stored in an `attributes` column (`L` is the label
type of the layer). -/
inductive AttrValue (L : Type) where
  | labelList (ls : List L)
  | colorMap (m : List (L × String))
  | payload (tag : Nat)
deriving DecidableEq

/-- A `dict` key test, `'k' in d`. -/
def hasKey {α : Type} (d : List (String × α)) (k : String) : Bool :=
  d.any (fun p => p.1 == k)

/-- The columns a `LabelLayer` constructor writes (plus the
`LabelLayerLabel` rows it bulk-inserts). -/
structure LabelLayerRec (L : Type) where
  type : String
  attributes : List (String × AttrValue L)
  mapobject_type_id : Nat
  labelRows : List (Nat × L)
deriving DecidableEq

/-- Embedding of `LabelLayer.__init__`: stores the class name, the extra
attributes and the mapobject type, and bulk-inserts one label row per
`labels` item; no validation of any argument. -/
def LabelLayer_init {L : Type} (typeName : String) (mapobject_type_id : Nat)
    (labels : List (Nat × L)) (extra : List (String × AttrValue L)) :
    LabelLayerRec L :=
  { type := typeName
    attributes := extra
    mapobject_type_id := mapobject_type_id
    labelRows := labels }

/-- `list(set(labels.values()))`: the distinct label values (CPython's
set order is unspecified; the embedding uses first-occurrence order). -/
def uniqueLabels {L : Type} [DecidableEq L] (labels : List (Nat × L)) : List L :=
  (labels.map Prod.snd).dedup

/-- Embedding of `ScalarLabelLayer.__init__` (also reached from its
subclass): updates `extra_attributes` with the `unique_labels` key
computed from `labels` before delegating to `LabelLayer.__init__`.
`typeName` is the dynamic class name. -/
def ScalarLabelLayer_init {L : Type} [DecidableEq L] (typeName : String)
    (mapobject_type_id : Nat) (labels : List (Nat × L))
    (extra : List (String × AttrValue L)) : LabelLayerRec L :=
  LabelLayer_init typeName mapobject_type_id labels
    (extra ++ [("unique_labels", AttrValue.labelList (uniqueLabels labels))])

/-- Embedding of `SupervisedClassifierLabelLayer.__init__`: adds the
`color_map` key and delegates to `ScalarLabelLayer.__init__`. -/
def SupervisedClassifierLabelLayer_init {L : Type} [DecidableEq L]
    (mapobject_type_id : Nat) (labels : List (Nat × L))
    (color_map : List (L × String)) (extra : List (String × AttrValue L)) :
    LabelLayerRec L :=
  ScalarLabelLayer_init "SupervisedClassifierLabelLayer" mapobject_type_id labels
    (extra ++ [("color_map", AttrValue.colorMap color_map)])

/-- Embedding of `ContinuousLabelLayer.__init__`: a plain delegation. -/
def ContinuousLabelLayer_init {L : Type} (mapobject_type_id : Nat)
    (labels : List (Nat × L)) (extra : List (String × AttrValue L)) :
    LabelLayerRec L :=
  LabelLayer_init "ContinuousLabelLayer" mapobject_type_id labels extra

/-- Embedding of `HeatmapLabelLayer.__init__`: raises `ValueError` when
`extra_attributes` has no `feature_id` key, otherwise delegates with an
empty labels dict. -/
def HeatmapLabelLayer_init {L : Type} (mapobject_type_id : Nat)
    (extra : List (String × AttrValue L)) : Except String (LabelLayerRec L) :=
  if hasKey extra "feature_id" then
    Except.ok (LabelLayer_init "HeatmapLabelLayer" mapobject_type_id [] extra)
  else
    Except.error "Heatmap tool requires \"feature_id\" attribute."

/-- The columns `Result.__init__` writes. -/
structure ResultRec where
  name : String
  tool_session_id : Nat
deriving DecidableEq

/-- Embedding of `Result.__init__`: only defaults the name from the tool
name and links the session, layer and plots; no validation. -/
def Result_init (toolName : String) (tool_session_id : Nat)
    (name : Option String) : ResultRec :=
  { name := name.getD (toolName ++ " result")
    tool_session_id := tool_session_id }

/-- The columns of a `Plot` row. -/
structure PlotRec (L : Type) where
  type : Option String
  attributes : List (String × AttrValue L)
deriving DecidableEq

/-- Embedding of `Plot.__init__`: stores the attributes unconditionally.
The source line `self.type == self.__class__.__name__` is a comparison,
not an assignment, so the `type` column is never written. -/
def Plot_init {L : Type} (attributes : List (String × AttrValue L)) : PlotRec L :=
  { type := none
    attributes := attributes }

/-! ## Helper lemmas -/

theorem contains_true_iff {α : Type} [BEq α] [LawfulBEq α] (l : List α) (a : α) :
    l.contains a = true ↔ a ∈ l := List.elem_iff

theorem contains_false_iff {α : Type} [BEq α] [LawfulBEq α] (l : List α) (a : α) :
    l.contains a = false ↔ a ∉ l := by
  rw [Bool.eq_false_iff]
  exact not_congr List.elem_iff

theorem dictGet_append_last {α : Type} (d : List (String × α)) (k : String) (v : α) :
    dictGet (d ++ [(k, v)]) k = some v := by
  induction d with
  | nil => simp [dictGet]
  | cons p rest ih =>
    obtain ⟨k', v'⟩ := p
    rw [List.cons_append, dictGet, ih]

theorem count_recovery (l : List Nat) (i : Nat) :
    ((l.map (fun tid => [Gc3Call.retrieveTask tid, Gc3Call.continueTask tid])).flatten).count
      (Gc3Call.continueTask i) = l.count i := by
  induction l with
  | nil => rfl
  | cons a as ih =>
    simp only [List.map_cons, List.flatten_cons, List.count_append, ih,
      List.count_cons, List.count_nil]
    have h1 : (Gc3Call.retrieveTask a == Gc3Call.continueTask i) = false := by
      simp
    have h2 : (Gc3Call.continueTask a == Gc3Call.continueTask i) = (a == i) := by
      by_cases h : a = i <;> simp [h]
    simp [h1, h2]
    omega

theorem claim_C1_helper_nodup (db : MainDb)
    (hnd : (db.tasks.map TaskRow.id).Nodup) : (get_interrupted_tasks db).Nodup := by
  have hsub : List.Sublist (get_interrupted_tasks db) (db.tasks.map TaskRow.id) := by
    unfold get_interrupted_tasks
    exact (List.filter_sublist _).map _
  exact hsub.nodup hnd

theorem drop_append_ge {α : Type} (p t : List α) (i : Nat) :
    (p ++ t).drop (p.length + i) = t.drop i := by
  induction p with
  | nil => simp
  | cons a as ih =>
    have hl : (a :: as).length + i = (as.length + i) + 1 := by
      simp [List.length_cons]
      omega
    rw [hl, List.cons_append, List.drop_succ_cons, ih]

theorem optionMapList_forall₂ {α β : Type} (f : α → Option β) :
    ∀ (l : List α) (ys : List β), optionMapList f l = some ys →
      List.Forall₂ (fun a b => f a = some b) l ys := by
  intro l
  induction l with
  | nil =>
    intro ys h
    simp only [optionMapList, Option.some.injEq] at h
    rw [← h]
    exact List.Forall₂.nil
  | cons a as ih =>
    intro ys h
    simp only [optionMapList] at h
    cases hfa : f a with
    | none => rw [hfa] at h; simp at h
    | some b =>
      cases hrest : optionMapList f as with
      | none => rw [hfa, hrest] at h; simp at h
      | some bs =>
        rw [hfa, hrest] at h
        simp only [Option.some.injEq] at h
        rw [← h]
        exact List.Forall₂.cons hfa (ih bs hrest)

theorem optionMapList_mem {α β : Type} (f : α → Option β) :
    ∀ (l : List α) (ys : List β), optionMapList f l = some ys →
      ∀ y ∈ ys, ∃ a ∈ l, f a = some y := by
  intro l
  induction l with
  | nil =>
    intro ys h y hy
    simp only [optionMapList, Option.some.injEq] at h
    rw [← h] at hy
    simp at hy
  | cons a as ih =>
    intro ys h y hy
    simp only [optionMapList] at h
    cases hfa : f a with
    | none => rw [hfa] at h; simp at h
    | some b =>
      cases hrest : optionMapList f as with
      | none => rw [hfa, hrest] at h; simp at h
      | some bs =>
        rw [hfa, hrest] at h
        simp only [Option.some.injEq] at h
        rw [← h] at hy
        rcases List.mem_cons.mp hy with hyb | hybs
        · exact ⟨a, List.mem_cons_self a as, hyb ▸ hfa⟩
        · obtain ⟨x, hx, hfx⟩ := ih bs hrest y hybs
          exact ⟨x, List.mem_cons_of_mem a hx, hfx⟩

theorem dictGet_zip_none {α : Type} :
    ∀ (ks : List String) (vs : List α) (key : String),
      key ∉ ks → dictGet (ks.zip vs) key = none := by
  intro ks
  induction ks with
  | nil => intro vs key _; rfl
  | cons k ks ih =>
    intro vs key hk
    cases vs with
    | nil => rfl
    | cons v vs =>
      rw [List.zip_cons_cons, dictGet, ih vs key (fun h => hk (List.mem_cons_of_mem _ h))]
      have hne : (k == key) = false := by
        have : k ≠ key := fun h => hk (h ▸ List.mem_cons_self _ _)
        simp [this]
      rw [hne]
      rfl

theorem dictGet_zip_find {β γ : Type} (pf : β → Option String) (g : β → γ) :
    ∀ (fs : List β) (ks : List String), optionMapList pf fs = some ks → ks.Nodup →
      ∀ key, dictGet (ks.zip (fs.map g)) key =
        ((fs.find? (fun f => pf f == some key)).map g) := by
  intro fs
  induction fs with
  | nil =>
    intro ks h _ key
    simp only [optionMapList, Option.some.injEq] at h
    rw [← h]
    rfl
  | cons f fs ih =>
    intro ks h hn key
    simp only [optionMapList] at h
    cases hfa : pf f with
    | none => rw [hfa] at h; simp at h
    | some k =>
      cases hrest : optionMapList pf fs with
      | none => rw [hfa, hrest] at h; simp at h
      | some ks' =>
        rw [hfa, hrest] at h
        simp only [Option.some.injEq] at h
        rw [← h] at hn ⊢
        obtain ⟨hknot, hnd'⟩ := List.nodup_cons.mp hn
        rw [List.map_cons, List.zip_cons_cons, dictGet]
        by_cases hkey : k = key
        · subst hkey
          rw [dictGet_zip_none ks' (fs.map g) k hknot]
          have hpos : (fun x => pf x == some k) f = true := by simp [hfa]
          rw [@List.find?_cons_of_pos _ (fun x => pf x == some k) f fs hpos]
          simp
        · have hneg : (fun x => pf x == some key) f = false := by
            simp [hfa, hkey]
          rw [@List.find?_cons_of_neg _ (fun x => pf x == some key) f fs (by simp [hneg]),
            ih ks' hrest hnd' key]
          have hne : (k == key) = false := by simp [hkey]
          cases hfind : fs.find? (fun x => pf x == some key) <;> simp [hfind, hne]

theorem filter_range_getLast (p : Nat → Bool) :
    ∀ (n m : Nat), m ≤ n → p m = true → (∀ k, m < k → k ≤ n → p k = false) →
      ((List.range (n + 1)).filter p).getLast? = some m := by
  intro n
  induction n with
  | zero =>
    intro m hm hp _
    interval_cases m
    rw [show List.range 1 = [0] from rfl]
    simp [List.filter, hp]
  | succ n ih =>
    intro m hm hp hk
    by_cases hmn : m = n + 1
    · subst hmn
      rw [List.range_succ, List.filter_append]
      have : List.filter p [n + 1] = [n + 1] := by simp [List.filter, hp]
      rw [this]
      exact List.getLast?_concat _
    · have hm' : m ≤ n := by omega
      rw [List.range_succ, List.filter_append]
      have hpn : p (n + 1) = false := hk (n + 1) (by omega) (le_refl _)
      have : List.filter p [n + 1] = [] := by simp [List.filter, hpn]
      rw [this, List.append_nil]
      exact ih m hm' hp (fun k h1 h2 => hk k h1 (by omega))

theorem isDigit_ne_underscore (c : Char) (h : c.isDigit = true) : c ≠ '_' := by
  intro h2
  subst h2
  exact absurd h (by decide)

theorem natDigitChar_isDigit (n : Nat) (h : n < 10) : (natDigitChar n).isDigit = true := by
  interval_cases n <;> decide

theorem natDecimalAux_digits :
    ∀ (fuel n : Nat), ∀ c ∈ natDecimalAux fuel n, c.isDigit = true := by
  intro fuel
  induction fuel with
  | zero => intro n c hc; simp [natDecimalAux] at hc
  | succ fuel ih =>
    intro n c hc
    rw [natDecimalAux] at hc
    split at hc
    · next h =>
      simp only [List.mem_singleton] at hc
      exact hc ▸ natDigitChar_isDigit n h
    · next h =>
      rcases List.mem_append.mp hc with h1 | h2
      · exact ih (n / 10) c h1
      · simp only [List.mem_singleton] at h2
        exact h2 ▸ natDigitChar_isDigit (n % 10) (Nat.mod_lt _ (by omega))

theorem natDecimal_digits (n : Nat) : ∀ c ∈ natDecimal n, c.isDigit = true :=
  natDecimalAux_digits (n + 1) n

theorem natDecimal_ne_nil (n : Nat) : natDecimal n ≠ [] := by
  unfold natDecimal natDecimalAux
  split <;> simp

theorem pad5L_digits (j : Nat) : ∀ c ∈ pad5L j, c.isDigit = true := by
  intro c hc
  rcases List.mem_append.mp hc with h1 | h2
  · rw [List.eq_of_mem_replicate h1]
    decide
  · exact natDecimal_digits j c h2

theorem pad5L_ne_nil (j : Nat) : pad5L j ≠ [] := by
  unfold pad5L
  intro h
  exact natDecimal_ne_nil j (List.append_eq_nil.mp h).2

theorem digitsThenDot_append (ds ext : List Char)
    (h : ∀ c ∈ ds, c.isDigit = true) : digitsThenDot (ds ++ '.' :: ext) = true := by
  induction ds with
  | nil => simp [digitsThenDot]
  | cons c cs ih =>
    rw [List.cons_append, digitsThenDot]
    rw [h c (List.mem_cons_self _ _)]
    simp only [if_true]
    exact ih (fun c hc => h c (List.mem_cons_of_mem _ hc))

theorem startsUDD_head (l : List Char) (h : startsUDD l = true) :
    ∃ rest, l = '_' :: rest := by
  cases l with
  | nil => simp [startsUDD] at h
  | cons a rest =>
    cases rest with
    | nil => simp [startsUDD] at h
    | cons c cs =>
      rw [startsUDD, Bool.and_eq_true, Bool.and_eq_true] at h
      have ha : a = '_' := by
        have := h.1.1
        simpa using this
      exact ⟨c :: cs, by rw [ha]⟩

theorem startsUDD_false_of_no_underscore (l : List Char)
    (h : ∀ c ∈ l, c ≠ '_') : startsUDD l = false := by
  cases hs : startsUDD l
  · rfl
  · obtain ⟨rest, hrest⟩ := startsUDD_head l hs
    exact absurd rfl (h '_' (hrest ▸ List.mem_cons_self _ _))

theorem group1L_append (p ds ext : List Char)
    (hnl : '\n' ∉ p) (hne : ds ≠ []) (hdig : ∀ c ∈ ds, c.isDigit = true)
    (hext : '_' ∉ ext) :
    group1L (p ++ '_' :: (ds ++ '.' :: ext)) = some p := by
  have hmatch : matchStartL (p ++ '_' :: (ds ++ '.' :: ext)) p.length = true := by
    unfold matchStartL
    rw [List.drop_left, List.take_left]
    have h1 : startsUDD ('_' :: (ds ++ '.' :: ext)) = true := by
      cases ds with
      | nil => exact absurd rfl hne
      | cons d ds' =>
        rw [List.cons_append, startsUDD]
        rw [hdig d (List.mem_cons_self _ _),
          digitsThenDot_append ds' ext (fun c hc => hdig c (List.mem_cons_of_mem _ hc))]
        decide
    rw [h1, (contains_false_iff p '\n').mpr hnl]
    rfl
  have hafter : ∀ k, p.length < k → k ≤ (p ++ '_' :: (ds ++ '.' :: ext)).length →
      matchStartL (p ++ '_' :: (ds ++ '.' :: ext)) k = false := by
    intro k hk _
    unfold matchStartL
    have hdrop : (p ++ '_' :: (ds ++ '.' :: ext)).drop k =
        (ds ++ '.' :: ext).drop (k - p.length - 1) := by
      have h1 : (p ++ '_' :: (ds ++ '.' :: ext)).drop k =
          ('_' :: (ds ++ '.' :: ext)).drop (k - p.length) := by
        conv_lhs => rw [show k = p.length + (k - p.length) by omega]
        exact drop_append_ge _ _ _
      rw [h1, show k - p.length = (k - p.length - 1) + 1 by omega, List.drop_succ_cons]
      congr 1
    rw [hdrop]
    have : startsUDD ((ds ++ '.' :: ext).drop (k - p.length - 1)) = false := by
      apply startsUDD_false_of_no_underscore
      intro c hc
      have hmem : c ∈ ds ++ '.' :: ext := List.drop_subset _ _ hc
      rcases List.mem_append.mp hmem with h1 | h2
      · exact isDigit_ne_underscore c (hdig c h1)
      · rcases List.mem_cons.mp h2 with h3 | h4
        · rw [h3]; decide
        · exact fun hcu => hext (hcu ▸ h4)
    rw [this]
    rfl
  have hlen : p.length ≤ (p ++ '_' :: (ds ++ '.' :: ext)).length := by
    rw [List.length_append]
    omega
  unfold group1L
  rw [filter_range_getLast (matchStartL (p ++ '_' :: (ds ++ '.' :: ext)))
    (p ++ '_' :: (ds ++ '.' :: ext)).length p.length hlen hmatch hafter]
  rw [Option.map_some']
  rw [List.take_left]

theorem group1L_globSuffix (p : List Char) (j : Nat) (ext : List Char)
    (hnl : '\n' ∉ p) (hext : '_' ∉ ext) :
    group1L (p ++ globSuffixL j ext) = some p :=
  group1L_append p (pad5L j) ext hnl (pad5L_ne_nil j) (pad5L_digits j) hext

theorem string_data_append (a b : String) : (a ++ b).data = a.data ++ b.data := by
  cases a
  cases b
  rfl

theorem concat_ne_runningMsg (a b : String) : a ++ "\n" ++ b ≠ jobRunningMsg := by
  intro h
  have hmem : '\n' ∈ (a ++ "\n" ++ b).data := by
    rw [string_data_append, string_data_append]
    exact List.mem_append_left _ (List.mem_append_right _ (by decide))
  rw [h] at hmem
  exact absurd hmem (by decide)

theorem processRunJob_inv (logDir figDir : List FsFile) (moduleNames : List String)
    (taskTable : List (Nat × TaskRecord)) (job : RunJob) (e : JobEntry)
    (h : processRunJob logDir figDir moduleNames taskTable job = some e) :
    ∃ j mf info, jobIndex job.jobname = some j ∧ module_file logDir j = some mf ∧
      lookupTask taskTable job.persistentId = some info ∧
      e = { id := j
            submissionId := info.submissionId
            name := job.jobname
            log := jobLog job
            modules := module_output logDir j mf moduleNames
            failed := !(info.exitcode == some 0) } := by
  unfold processRunJob at h
  split at h
  · simp at h
  · next j hj =>
    split at h
    · simp at h
    · next mf hmf =>
      split at h
      · simp at h
      · next fs hfn =>
        split at h
        · simp at h
        · next info hinfo =>
          simp only [Option.some.injEq] at h
          exact ⟨j, mf, info, hj, hmf, hinfo, h.symm⟩

/-! ## Claim theorems -/

/-- Claim C1: at startup `create_app` resubmits exactly the interrupted
tasks. `get_interrupted_tasks` returns precisely the ids of tasks that
are the top-level task of some submission and whose state is none of
STOPPED, TERMINATED, TERMINATING, and the recovery loop issues exactly
one `continue_task` call per returned id and none for any other task. -/
theorem claim_C1_startup_recovery (db : MainDb)
    (hnd : (db.tasks.map TaskRow.id).Nodup) (i : Nat) :
    (i ∈ get_interrupted_tasks db ↔
      ∃ t ∈ db.tasks, t.id = i ∧ (∃ s ∈ db.submissions, s.top_task_id = i) ∧
        t.state ∉ stoppedStates) ∧
    (create_app_task_recovery db).count (Gc3Call.continueTask i) =
      (if i ∈ get_interrupted_tasks db then 1 else 0) := by
  constructor
  · unfold get_interrupted_tasks
    constructor
    · intro hmem
      obtain ⟨t, htf, rfl⟩ := List.mem_map.mp hmem
      obtain ⟨ht, hcond⟩ := List.mem_filter.mp htf
      rw [Bool.and_eq_true, Bool.not_eq_true'] at hcond
      obtain ⟨hin, hst⟩ := hcond
      obtain ⟨s, hs, hse⟩ := List.mem_map.mp ((contains_true_iff _ _).mp hin)
      exact ⟨t, ht, rfl, ⟨s, hs, hse⟩, (contains_false_iff _ _).mp hst⟩
    · rintro ⟨t, ht, rfl, ⟨s, hs, hse⟩, hst⟩
      refine List.mem_map.mpr ⟨t, List.mem_filter.mpr ⟨ht, ?_⟩, rfl⟩
      rw [Bool.and_eq_true, Bool.not_eq_true']
      exact ⟨(contains_true_iff _ _).mpr (List.mem_map.mpr ⟨s, hs, hse⟩),
        (contains_false_iff _ _).mpr hst⟩
  · unfold create_app_task_recovery
    rw [count_recovery]
    by_cases h : i ∈ get_interrupted_tasks db
    · simp only [h, if_true]
      exact List.count_eq_one_of_mem (claim_C1_helper_nodup db hnd) h
    · simp only [h, if_false]
      exact List.count_eq_zero_of_not_mem h

/-- Witness for C1 at a concrete database: task 1 is a top-level task in
state RUNNING, so it receives exactly one `continue_task` call. -/
theorem claim_C1_startup_recovery_witness :
    (create_app_task_recovery
      ⟨[⟨1⟩, ⟨2⟩], [⟨1, "RUNNING"⟩, ⟨2, "STOPPED"⟩, ⟨3, "NEW"⟩]⟩).count
      (Gc3Call.continueTask 1) = 1 := by
  rw [(claim_C1_startup_recovery
    ⟨[⟨1⟩, ⟨2⟩], [⟨1, "RUNNING"⟩, ⟨2, "STOPPED"⟩, ⟨3, "NEW"⟩]⟩ (by decide) 1).2]
  decide

/-- Claim C2: the names `pipeline`, `flatten` and `channel_ids` used by
`create_joblist` resolve neither to a local, nor to a module-level
binding of `jtui/api.py`, nor to a builtin, so the function raises
`NameError` (at the `ImageAnalysisPipeline(...)` call, before its `try`
block) on every request instead of building a joblist; names the
function does define (e.g. `ImageAnalysisPipeline`, `jsonify`) resolve. -/
theorem claim_C2_create_joblist_name_errors :
    nameResolves "pipeline" create_joblist_locals = false ∧
    nameResolves "flatten" create_joblist_locals = false ∧
    nameResolves "channel_ids" create_joblist_locals = false ∧
    nameResolves "ImageAnalysisPipeline" create_joblist_locals = true ∧
    nameResolves "jsonify" create_joblist_locals = true ∧
    nameResolves "get_step_args" create_joblist_locals = true := by
  decide

/-- Claim C7 counterexample: `HeatmapLabelLayer.__init__` raises
`ValueError` when `extra_attributes` lacks the `feature_id` key, and
`ScalarLabelLayer.__init__` stores under `unique_labels` a value computed
from the `labels` argument — so these constructors do enforce predicates
and maintain relations beyond referential integrity. -/
theorem claim_C7_counterexample :
    HeatmapLabelLayer_init (L := Nat) 1 [] =
      Except.error "Heatmap tool requires \"feature_id\" attribute." ∧
    dictGet (ScalarLabelLayer_init (L := Nat) "ScalarLabelLayer" 1 [(10, 5)] []).attributes
      "unique_labels" = some (AttrValue.labelList [5]) := by
  constructor
  · rfl
  · decide

/-- Claim C7 (amended): `Result`, `LabelLayer`, `ContinuousLabelLayer`
and `Plot` enforce nothing and store their arguments unchanged;
`ScalarLabelLayer` additionally derives the `unique_labels` attribute
(the distinct label values) from `labels`; and `HeatmapLabelLayer`
requires the `feature_id` key in `extra_attributes`, raising `ValueError`
exactly when it is absent. -/
theorem claim_C7_amended {L : Type} [DecidableEq L] :
    (∀ (mid : Nat) (extra : List (String × AttrValue L)),
      hasKey extra "feature_id" = true →
        HeatmapLabelLayer_init mid extra =
          Except.ok (LabelLayer_init "HeatmapLabelLayer" mid [] extra)) ∧
    (∀ (mid : Nat) (extra : List (String × AttrValue L)),
      hasKey extra "feature_id" = false →
        HeatmapLabelLayer_init mid extra =
          Except.error "Heatmap tool requires \"feature_id\" attribute.") ∧
    (∀ (cls : String) (mid : Nat) (labels : List (Nat × L))
        (extra : List (String × AttrValue L)),
      dictGet (ScalarLabelLayer_init cls mid labels extra).attributes "unique_labels" =
          some (AttrValue.labelList (uniqueLabels labels)) ∧
        (∀ x, x ∈ uniqueLabels labels ↔ x ∈ labels.map Prod.snd) ∧
        (uniqueLabels labels).Nodup) ∧
    (∀ (tn : String) (mid : Nat) (labels : List (Nat × L))
        (extra : List (String × AttrValue L)),
      LabelLayer_init tn mid labels extra =
        ⟨tn, extra, mid, labels⟩ ∧
      ContinuousLabelLayer_init mid labels extra =
        ⟨"ContinuousLabelLayer", extra, mid, labels⟩) ∧
    (∀ (toolName : String) (sid : Nat),
      Result_init toolName sid none = ⟨toolName ++ " result", sid⟩ ∧
      ∀ nm, Result_init toolName sid (some nm) = ⟨nm, sid⟩) ∧
    (∀ attrs : List (String × AttrValue L),
      Plot_init attrs = ⟨none, attrs⟩) := by
  refine ⟨?_, ?_, ?_, ?_, ?_, ?_⟩
  · intro mid extra h
    simp [HeatmapLabelLayer_init, h]
  · intro mid extra h
    simp [HeatmapLabelLayer_init, h]
  · intro cls mid labels extra
    refine ⟨?_, ?_, ?_⟩
    · unfold ScalarLabelLayer_init LabelLayer_init
      exact dictGet_append_last _ _ _
    · intro x
      exact List.mem_dedup
    · exact List.nodup_dedup _
  · intro tn mid labels extra
    exact ⟨rfl, rfl⟩
  · intro toolName sid
    exact ⟨rfl, fun nm => rfl⟩
  · intro attrs
    rfl

/-- Witness for the amended C7 at concrete inputs: with `feature_id`
present the heatmap constructor succeeds and stores the attributes
unchanged. -/
theorem claim_C7_amended_witness :
    HeatmapLabelLayer_init (L := Nat) 4 [("feature_id", AttrValue.payload 9)] =
      Except.ok (LabelLayer_init "HeatmapLabelLayer" 4 []
        [("feature_id", AttrValue.payload 9)]) := by
  exact (claim_C7_amended (L := Nat)).1 4 [("feature_id", AttrValue.payload 9)] (by decide)

/-- Claim C8: `register_upload` creates an image (resp. metadata) record
for exactly the submitted names matching the image (resp. metadata)
regex whose sanitized name is not yet registered; already registered
names gain no duplicate, and an empty `files` list raises
`MalformedRequestError` without creating records. -/
theorem claim_C8_register_upload (imgMatch metaMatch : String → Bool)
    (secure : String → String) (imgFilenames metaFilenames files : List String) :
    (files = [] →
      register_upload imgMatch metaMatch secure imgFilenames metaFilenames files =
        Except.error "No files supplied. Cannot register upload.") ∧
    (files ≠ [] →
      register_upload imgMatch metaMatch secure imgFilenames metaFilenames files =
        Except.ok (registered_img_files imgMatch secure imgFilenames files,
          registered_meta_files metaMatch secure metaFilenames files)) ∧
    (∀ n, n ∈ registered_img_files imgMatch secure imgFilenames files ↔
      ∃ f ∈ files, imgMatch f = true ∧ secure f ∉ imgFilenames ∧ n = secure f) ∧
    (∀ n, n ∈ registered_meta_files metaMatch secure metaFilenames files ↔
      ∃ f ∈ files, metaMatch f = true ∧ secure f ∉ metaFilenames ∧ n = secure f) ∧
    (∀ n ∈ imgFilenames, n ∉ registered_img_files imgMatch secure imgFilenames files) ∧
    (∀ n ∈ metaFilenames, n ∉ registered_meta_files metaMatch secure metaFilenames files) := by
  have himg : ∀ n, n ∈ registered_img_files imgMatch secure imgFilenames files ↔
      ∃ f ∈ files, imgMatch f = true ∧ secure f ∉ imgFilenames ∧ n = secure f := by
    intro n
    unfold registered_img_files
    constructor
    · intro hmem
      obtain ⟨f, hff, rfl⟩ := List.mem_map.mp hmem
      obtain ⟨hf, hcond⟩ := List.mem_filter.mp hff
      rw [Bool.and_eq_true, Bool.not_eq_true'] at hcond
      exact ⟨f, hf, hcond.1, (contains_false_iff _ _).mp hcond.2, rfl⟩
    · rintro ⟨f, hf, hm, hreg, rfl⟩
      refine List.mem_map.mpr ⟨f, List.mem_filter.mpr ⟨hf, ?_⟩, rfl⟩
      rw [Bool.and_eq_true, Bool.not_eq_true']
      exact ⟨hm, (contains_false_iff _ _).mpr hreg⟩
  have hmeta : ∀ n, n ∈ registered_meta_files metaMatch secure metaFilenames files ↔
      ∃ f ∈ files, metaMatch f = true ∧ secure f ∉ metaFilenames ∧ n = secure f := by
    intro n
    unfold registered_meta_files
    constructor
    · intro hmem
      obtain ⟨f, hff, rfl⟩ := List.mem_map.mp hmem
      obtain ⟨hf, hcond⟩ := List.mem_filter.mp hff
      rw [Bool.and_eq_true, Bool.not_eq_true'] at hcond
      exact ⟨f, hf, hcond.1, (contains_false_iff _ _).mp hcond.2, rfl⟩
    · rintro ⟨f, hf, hm, hreg, rfl⟩
      refine List.mem_map.mpr ⟨f, List.mem_filter.mpr ⟨hf, ?_⟩, rfl⟩
      rw [Bool.and_eq_true, Bool.not_eq_true']
      exact ⟨hm, (contains_false_iff _ _).mpr hreg⟩
  refine ⟨?_, ?_, himg, hmeta, ?_, ?_⟩
  · intro h
    simp [register_upload, h]
  · intro h
    have : files.length ≠ 0 := by
      simpa [List.length_eq_zero] using h
    simp [register_upload, this]
  · intro n hn hmem
    obtain ⟨f, _, _, hreg, rfl⟩ := (himg n).1 hmem
    exact hreg hn
  · intro n hn hmem
    obtain ⟨f, _, _, hreg, rfl⟩ := (hmeta n).1 hmem
    exact hreg hn

/-- Witness for C8 at concrete inputs: of two submitted names, the one
matching the image regex yields an image record and the one matching the
metadata regex a metadata record. -/
theorem claim_C8_register_upload_witness :
    register_upload (fun s => s.toList.contains 'g') (fun s => s.toList.contains 'x') id
      [] [] ["a.png", "b.txt"] = Except.ok (["a.png"], ["b.txt"]) := by
  rw [(claim_C8_register_upload (fun s => s.toList.contains 'g')
    (fun s => s.toList.contains 'x') id [] [] ["a.png", "b.txt"]).2.1 (by decide)]
  rfl

/-- Claim C9: `get_available_jtpipelines` always answers with the empty
list — the list of pipeline basenames it computes is rebound to `[]`
before the response is built, whatever the repository contains. -/
theorem claim_C9_jtpipelines_always_empty :
    ∀ (pipeProjects : List String), get_available_jtpipelines pipeProjects = [] :=
  fun _ => rfl

/-- Claim C10: when a filename is registered both as image and as
metadata file, `upload_file` handles it as the image file, and the
`elif`-chain makes the branch raising "File was registered as both image
and metadata file" unreachable for every input. -/
theorem claim_C10_upload_file_both_branch :
    ∀ (fn : String) (i : Nat) (m : Option Nat),
      upload_file_select fn (some i) m = Except.ok (UploadChoice.image (some i)) ∧
      ∀ (fn' : String) (a b : Option Nat),
        upload_file_select fn a b ≠ Except.error (UploadError.registeredAsBoth fn') := by
  intro fn i m
  constructor
  · cases m <;> rfl
  · intro fn' a b
    cases a <;> cases b <;> simp [upload_file_select]


/-- Claim C3 counterexample: with the module-log directory listed in the
order `alpha_00001.out, beta_00001.out, beta_00001.err, alpha_00001.err`
(glob order is directory order), the stderr dict of `_get_output` stores
the content `BE` of `beta_00001.err` — whose basename prefix before the
final underscore-digits group is `beta` — under the module name `alpha`,
so the name assigned to that stderr file is not the one from its own
basename. -/
theorem claim_C3_counterexample :
    module_file [⟨"alpha_00001.out", "A"⟩, ⟨"beta_00001.out", "B"⟩,
        ⟨"beta_00001.err", "BE"⟩, ⟨"alpha_00001.err", "AE"⟩] 1 =
      some ["alpha", "beta"] ∧
    dictGet (module_stderrPairs [⟨"alpha_00001.out", "A"⟩, ⟨"beta_00001.out", "B"⟩,
        ⟨"beta_00001.err", "BE"⟩, ⟨"alpha_00001.err", "AE"⟩] 1 ["alpha", "beta"])
      "alpha" = some "BE" ∧
    group1 "beta_00001.err" = some "beta" ∧
    ("alpha" : String) ≠ "beta" := by
  refine ⟨by decide, by decide, by decide, by decide⟩

/-- Claim C3 (amended): for a `RunJob` whose jobname ends in underscore
digits with value `j`, the stdout, stderr and figure files attributed to
the job are exactly the directory entries matching the glob patterns
`*_<j padded to 5>.out` / `.err` / `.json`; the module names for the
stdout and figure files are each file's own basename prefix before the
final underscore-digits-dot group (the greedy regex group); but the
stderr contents are keyed positionally by the stdout-derived name list,
not by the stderr files' own basenames. -/
theorem claim_C3_amended (logDir figDir : List FsFile) (job : RunJob) (j : Nat)
    (hj : jobIndex job.jobname = some j) :
    (∀ f : FsFile,
      (f ∈ stdout_files logDir j ↔
        f ∈ logDir ∧ globMatch (globSuffixL j extOut) f.name = true) ∧
      (f ∈ stderr_files logDir j ↔
        f ∈ logDir ∧ globMatch (globSuffixL j extErr) f.name = true) ∧
      (f ∈ fig_files figDir j ↔
        f ∈ figDir ∧ globMatch (globSuffixL j extJson) f.name = true)) ∧
    (∀ (p ext : List Char), '\n' ∉ p → '_' ∉ ext →
      group1L (p ++ globSuffixL j ext) = some p) ∧
    (∀ mf, module_file logDir j = some mf →
      List.Forall₂ (fun (f : FsFile) m => group1 f.name = some m)
        (stdout_files logDir j) mf) ∧
    (∀ fs, fig_names figDir j = some fs →
      List.Forall₂ (fun (f : FsFile) m => group1 f.name = some m)
        (fig_files figDir j) fs) ∧
    (∀ mf, module_stderrPairs logDir j mf =
      mf.zip ((stderr_files logDir j).map FsFile.content)) := by
  refine ⟨?_, ?_, ?_, ?_, fun mf => rfl⟩
  · intro f
    refine ⟨?_, ?_, ?_⟩
    · simp [stdout_files, List.mem_filter]
    · simp [stderr_files, List.mem_filter]
    · simp [fig_files, List.mem_filter]
  · intro p ext hnl hext
    exact group1L_globSuffix p j ext hnl hext
  · intro mf hmf
    exact optionMapList_forall₂ _ _ _ hmf
  · intro fs hfn
    exact optionMapList_forall₂ _ _ _ hfn

/-- Witness for the amended C3: for job index 1 the regex group of a
concrete matching filename is its prefix before `_00001.`. -/
theorem claim_C3_amended_witness :
    group1L ("mod".toList ++ globSuffixL 1 extOut) = some "mod".toList :=
  (claim_C3_amended [] [] ⟨"jtui_run_1", [], "o", "e", 1⟩ 1 (by decide)).2.1
    "mod".toList extOut (by decide) (by decide)

/-- Claim C4 counterexample: module `alpha` wrote a stdout file and
module `beta` only a stderr file; `_get_output` then pairs `beta`'s
stderr content `BE` with module `alpha` (whose own stderr file is
absent) and gives `beta` no stderr at all — a module's stderr content is
attributed to a different module. -/
theorem claim_C4_counterexample :
    processRunJob [⟨"alpha_00001.out", "A"⟩, ⟨"beta_00001.err", "BE"⟩] []
        (list_module_names [⟨"alpha.handles.yaml", true⟩, ⟨"beta.handles.yaml", true⟩])
        [(7, ⟨some 0, 3⟩)] ⟨"jtui_run_1", [], "o", "e", 7⟩ =
      some ⟨1, 3, "jtui_run_1", jobRunningMsg,
        [⟨"alpha", some "A", some "BE"⟩, ⟨"beta", none, none⟩], false⟩ ∧
    group1 "beta_00001.err" = some "beta" ∧
    (∀ f ∈ ([⟨"alpha_00001.out", "A"⟩, ⟨"beta_00001.err", "BE"⟩] : List FsFile),
      f.name ≠ "alpha_00001.err") := by
  refine ⟨by decide, by decide, by decide⟩

/-- Claim C4 (amended): the per-module entry pairs each active module
name with that module's own stdout content, and with that module's own
stderr content provided the stderr files' basename prefixes coincide
pointwise with the stdout-derived name list (and the names are
distinct); in general the stderr content paired with a module is the one
at the position of that module's stdout file. -/
theorem claim_C4_amended (logDir figDir : List FsFile)
    (pipeline : List PipelineModule) (taskTable : List (Nat × TaskRecord))
    (job : RunJob) (e : JobEntry) (j : Nat) (mf : List String)
    (h : processRunJob logDir figDir (list_module_names pipeline) taskTable job = some e)
    (hj : jobIndex job.jobname = some j)
    (hmf : module_file logDir j = some mf)
    (hnd : mf.Nodup)
    (herr : optionMapList (fun f => group1 f.name) (stderr_files logDir j) = some mf) :
    e.modules = (list_module_names pipeline).map (fun m =>
      { name := m
        stdout := ((stdout_files logDir j).find?
          (fun f => group1 f.name == some m)).map FsFile.content
        stderr := ((stderr_files logDir j).find?
          (fun f => group1 f.name == some m)).map FsFile.content }) := by
  obtain ⟨j', mf', info, hj', hmf', hinfo, rfl⟩ :=
    processRunJob_inv logDir figDir (list_module_names pipeline) taskTable job e h
  rw [hj] at hj'
  have hjj : j' = j := by
    injection hj' with hh
    exact hh.symm
  rw [hjj] at hmf'
  rw [hmf] at hmf'
  have hmm : mf' = mf := by
    injection hmf' with hh
    exact hh.symm
  rw [hjj, hmm]
  show module_output logDir j mf (list_module_names pipeline) = _
  unfold module_output
  apply List.map_congr_left
  intro m _
  have hmf2 : optionMapList (fun f => group1 f.name) (stdout_files logDir j) = some mf := by
    rw [← hmf]
    rfl
  have h1 := dictGet_zip_find (fun f => group1 f.name) FsFile.content
    (stdout_files logDir j) mf hmf2 hnd m
  have h2 := dictGet_zip_find (fun f => group1 f.name) FsFile.content
    (stderr_files logDir j) mf herr hnd m
  unfold module_stdoutPairs module_stderrPairs
  rw [h1, h2]

/-- Witness for the amended C4: when module `alpha` has both a stdout
and a stderr file, its entry carries its own contents. -/
theorem claim_C4_amended_witness :
    ∃ e : JobEntry,
      processRunJob [⟨"alpha_00001.out", "A"⟩, ⟨"alpha_00001.err", "AE"⟩] []
          (list_module_names [⟨"alpha.handles.yaml", true⟩]) [(7, ⟨some 0, 3⟩)]
          ⟨"jtui_run_1", [], "o", "e", 7⟩ = some e ∧
      e.modules = (list_module_names [⟨"alpha.handles.yaml", true⟩]).map (fun m =>
        { name := m
          stdout := ((stdout_files [⟨"alpha_00001.out", "A"⟩, ⟨"alpha_00001.err", "AE"⟩] 1).find?
            (fun f => group1 f.name == some m)).map FsFile.content
          stderr := ((stderr_files [⟨"alpha_00001.out", "A"⟩, ⟨"alpha_00001.err", "AE"⟩] 1).find?
            (fun f => group1 f.name == some m)).map FsFile.content }) := by
  refine ⟨⟨1, 3, "jtui_run_1", jobRunningMsg, [⟨"alpha", some "A", some "AE"⟩], false⟩,
    by decide, ?_⟩
  exact claim_C4_amended [⟨"alpha_00001.out", "A"⟩, ⟨"alpha_00001.err", "AE"⟩] []
    [⟨"alpha.handles.yaml", true⟩] [(7, ⟨some 0, 3⟩)] ⟨"jtui_run_1", [], "o", "e", 7⟩
    ⟨1, 3, "jtui_run_1", jobRunningMsg, [⟨"alpha", some "A", some "AE"⟩], false⟩ 1 ["alpha"]
    (by decide) (by decide) (by decide) (by decide) (by decide)

/-- Claim C5 counterexample: for a job whose task row has a `NULL`
exitcode (task not finished), `_get_output` reports `failed = true`
although no nonzero exitcode is stored, because Python's
`task_info.exitcode != 0` is true for `None`. -/
theorem claim_C5_counterexample :
    processRunJob [] [] [] [(5, ⟨none, 3⟩)] ⟨"run_1", [], "o", "e", 5⟩ =
      some ⟨1, 3, "run_1", jobRunningMsg, [], true⟩ ∧
    (∀ c : Int, ¬((⟨none, 3⟩ : TaskRecord).exitcode = some c ∧ c ≠ 0)) := by
  refine ⟨by decide, ?_⟩
  intro c hc
  exact Option.noConfusion hc.1

/-- Claim C5 (amended): for every job reported by `_get_output`, the
entry's `failed` field is true iff the exitcode stored for the job's
persistent id is nonzero or missing (`NULL`), and `submissionId` is the
`submission_id` of that task row. -/
theorem claim_C5_amended (wf : List WfTask) (logDir figDir : List FsFile)
    (moduleNames : List String) (taskTable : List (Nat × TaskRecord))
    (out : List JobEntry)
    (h : _get_output wf logDir figDir moduleNames taskTable = some out) :
    ∀ e ∈ out, ∃ job ∈ runJobsOf wf,
      processRunJob logDir figDir moduleNames taskTable job = some e ∧
      ∃ rec, lookupTask taskTable job.persistentId = some rec ∧
        (e.failed = true ↔
          (rec.exitcode = none ∨ ∃ c : Int, rec.exitcode = some c ∧ c ≠ 0)) ∧
        e.submissionId = rec.submissionId := by
  intro e he
  obtain ⟨job, hjmem, hpe⟩ := optionMapList_mem _ _ _ h e he
  refine ⟨job, hjmem, hpe, ?_⟩
  obtain ⟨j, mf, info, hj, hmf, hinfo, rfl⟩ :=
    processRunJob_inv logDir figDir moduleNames taskTable job _ hpe
  refine ⟨info, hinfo, ?_, rfl⟩
  cases hec : info.exitcode with
  | none => simp
  | some c => simp

/-- Witness for the amended C5 at a one-job workflow with a failed task
(exitcode 2). -/
theorem claim_C5_amended_witness :
    ∃ job ∈ runJobsOf [WfTask.runJobCollection [SubTask.runJob ⟨"run_1", [], "o", "e", 5⟩]],
      processRunJob [] [] [] [(5, ⟨some 2, 9⟩)] job =
        some ⟨1, 9, "run_1", jobRunningMsg, [], true⟩ ∧
      ∃ rec, lookupTask [(5, ⟨some 2, 9⟩)] job.persistentId = some rec ∧
        ((⟨1, 9, "run_1", jobRunningMsg, [], true⟩ : JobEntry).failed = true ↔
          (rec.exitcode = none ∨ ∃ c : Int, rec.exitcode = some c ∧ c ≠ 0)) ∧
        (⟨1, 9, "run_1", jobRunningMsg, [], true⟩ : JobEntry).submissionId =
          rec.submissionId := by
  exact claim_C5_amended [WfTask.runJobCollection [SubTask.runJob ⟨"run_1", [], "o", "e", 5⟩]]
    [] [] [] [(5, ⟨some 2, 9⟩)] [⟨1, 9, "run_1", jobRunningMsg, [], true⟩] (by decide)
    ⟨1, 9, "run_1", jobRunningMsg, [], true⟩ (by decide)

/-- Claim C6: for every `RunJob` processed by `_get_output`, the
reported `log` is the literal `-- Job is still running --` exactly when
the job's stdout file and stderr file are each missing or empty, and
otherwise it is the stdout content, a single newline, and the stderr
content (a missing file contributing the empty string). -/
theorem claim_C6_running_log (logDir figDir : List FsFile) (moduleNames : List String)
    (taskTable : List (Nat × TaskRecord)) (job : RunJob) (e : JobEntry)
    (h : processRunJob logDir figDir moduleNames taskTable job = some e) :
    (e.log = jobRunningMsg ↔
      ((readFile job.outputDir job.stdoutName = none ∨
        readFile job.outputDir job.stdoutName = some "") ∧
       (readFile job.outputDir job.stderrName = none ∨
        readFile job.outputDir job.stderrName = some ""))) ∧
    (e.log ≠ jobRunningMsg →
      e.log = effContent job.outputDir job.stdoutName ++ "\n" ++
        effContent job.outputDir job.stderrName) := by
  obtain ⟨j, mf, info, hj, hmf, hinfo, rfl⟩ :=
    processRunJob_inv logDir figDir moduleNames taskTable job e h
  have heff : ∀ (d : List FsFile) (n : String),
      effContent d n = "" ↔ (readFile d n = none ∨ readFile d n = some "") := by
    intro d n
    unfold effContent
    cases hr : readFile d n <;> simp
  show (jobLog job = jobRunningMsg ↔ _) ∧ (jobLog job ≠ jobRunningMsg → jobLog job = _)
  by_cases hso : effContent job.outputDir job.stdoutName = "" <;>
    by_cases hse : effContent job.outputDir job.stderrName = ""
  · constructor
    · constructor
      · intro _
        exact ⟨(heff _ _).mp hso, (heff _ _).mp hse⟩
      · intro _
        simp [jobLog, hso, hse]
    · intro hne
      exact absurd (by simp [jobLog, hso, hse]) hne
  · have hlog : jobLog job = effContent job.outputDir job.stdoutName ++ "\n" ++
        effContent job.outputDir job.stderrName := by
      simp only [jobLog]
      rw [if_neg]
      simp [hse]
    constructor
    · rw [hlog]
      constructor
      · intro hcon
        exact absurd hcon (concat_ne_runningMsg _ _)
      · rintro ⟨_, h2⟩
        exact absurd ((heff _ _).mpr h2) hse
    · intro _
      exact hlog
  · have hlog : jobLog job = effContent job.outputDir job.stdoutName ++ "\n" ++
        effContent job.outputDir job.stderrName := by
      simp only [jobLog]
      rw [if_neg]
      simp [hso]
    constructor
    · rw [hlog]
      constructor
      · intro hcon
        exact absurd hcon (concat_ne_runningMsg _ _)
      · rintro ⟨h1, _⟩
        exact absurd ((heff _ _).mpr h1) hso
    · intro _
      exact hlog
  · have hlog : jobLog job = effContent job.outputDir job.stdoutName ++ "\n" ++
        effContent job.outputDir job.stderrName := by
      simp only [jobLog]
      rw [if_neg]
      simp [hso]
    constructor
    · rw [hlog]
      constructor
      · intro hcon
        exact absurd hcon (concat_ne_runningMsg _ _)
      · rintro ⟨h1, _⟩
        exact absurd ((heff _ _).mpr h1) hso
    · intro _
      exact hlog

/-- Witness for C6: a job with stdout `hello` and no stderr file reports
the log `hello` followed by a newline, not the still-running marker. -/
theorem claim_C6_running_log_witness :
    (⟨1, 2, "j_1", "hello\n", [], false⟩ : JobEntry).log ≠ jobRunningMsg ∧
    (⟨1, 2, "j_1", "hello\n", [], false⟩ : JobEntry).log =
      effContent [⟨"o", "hello"⟩] "o" ++ "\n" ++ effContent [⟨"o", "hello"⟩] "e" := by
  refine ⟨by decide, ?_⟩
  exact (claim_C6_running_log [] [] [] [(5, ⟨some 0, 2⟩)]
    ⟨"j_1", [⟨"o", "hello"⟩], "o", "e", 5⟩
    ⟨1, 2, "j_1", "hello\n", [], false⟩ (by decide)).2 (by decide)
